import Mathlib

/-!
Verification of the BookScript Writer core (src/storage.rs, src/app.rs).

Shallow embedding conventions:
* A filesystem path is a list of components (`Path`); `Path.display` renders
  it with `/` separators (stand-in for Rust `Path::display`).
* The filesystem is an association list from paths to entries (file with
  string content, or directory); lookup takes the first binding, and an
  insert conses a fresh binding (so it shadows, i.e. overwrites).
  The empty path `[]` plays the role of the filesystem root, which is
  always a directory.
* `anyhow` errors are modelled by the `Err` inductive carrying the
  human-readable context message the code attaches via `.context(...)`;
  `Err.display` is what Rust `format!("{}", e)` shows (the outermost
  context message).
* Fallible filesystem primitives return `Option`; the storage-layer
  functions wrap failures into `Except Err` with the exact context
  strings from src/storage.rs.
* `directories::ProjectDirs::from("com", "BookScript", "BookScript")`
  is abstracted by an `Option Path` environment argument: `some d` means
  the platform resolved the per-user data directory `d` for the fixed
  com.BookScript.BookScript namespace, `none` means it could not be
  determined.
* Lock discipline and step ordering are captured by an event trace
  (`Ev`): each embedded operation returns, next to its result, the list
  of lock acquisitions/releases and disk-I/O actions it performs, in
  program order, line by line from the source.
-/

namespace BookScript

/-- A filesystem path, as its list of components. -/
abbrev Path := List String

/-- Rendering of a path, standing in for Rust `Path::display`. -/
def Path.display (p : Path) : String :=
  String.intercalate "/" p

/-- Model of `Path::parent` from Rust std: `none` for the empty path, otherwise the
path with the last component dropped. -/
def Path.parent : Path → Option Path
  | [] => none
  | p => some p.dropLast

/-- A directory entry: a text file with its content, or a directory. -/
inductive Entry
  | file (content : String)
  | dir
deriving Repr, DecidableEq

/-- The filesystem: an association list from paths to entries. -/
abbrev FS := List (Path × Entry)

/-- First-binding lookup in the filesystem. -/
def FS.lookup : FS → Path → Option Entry
  | [], _ => none
  | (q, e) :: rest, p => if p = q then some e else FS.lookup rest p

/-- Insert (or overwrite, via shadowing) a binding. -/
def FS.insert (fs : FS) (p : Path) (e : Entry) : FS :=
  (p, e) :: fs

/-- Whether `p` is a directory: the root `[]` always is; any other path is a
directory exactly when it is bound to `Entry.dir`. -/
def FS.isDir (fs : FS) (p : Path) : Bool :=
  match p with
  | [] => true
  | _ => FS.lookup fs p == some .dir

/-- Model of `fs::read_to_string`: succeeds exactly on an existing file entry. -/
def FS.readFile (fs : FS) (p : Path) : Option String :=
  match FS.lookup fs p with
  | some (.file c) => some c
  | _ => none

/-- Create one directory (`mkdir`): fails if a file sits at the path,
no-op if the directory already exists. -/
def FS.mkdirOne (fs : FS) (p : Path) : Option FS :=
  match FS.lookup fs p with
  | some (.file _) => none
  | some .dir => some fs
  | none => some (FS.insert fs p .dir)

/-- Worker for `createDirAll`: create `done ++ rest.take k` for every
`1 ≤ k ≤ rest.length`, in order of increasing depth. -/
def FS.createDirAllAux (done : Path) (rest : Path) (fs : FS) : Option FS :=
  match rest with
  | [] => some fs
  | c :: cs =>
    match FS.mkdirOne fs (done ++ [c]) with
    | none => none
    | some fs' => FS.createDirAllAux (done ++ [c]) cs fs'

/-- Model of `fs::create_dir_all`: create every missing ancestor of `p` and `p`
itself as directories; fails when a file is in the way. -/
def FS.createDirAll (fs : FS) (p : Path) : Option FS :=
  FS.createDirAllAux [] p fs

/-- Model of `fs::write`: overwrite/create the file at `p`. Fails on the root path,
on an existing directory at `p`, or when the parent is not a directory. -/
def FS.writeFile (fs : FS) (p : Path) (c : String) : Option FS :=
  match p with
  | [] => none
  | _ =>
    if FS.isDir fs p then none
    else if FS.isDir fs p.dropLast then some (FS.insert fs p (.file c))
    else none

/-- Errors, following the taxonomy of the spec (`IOError` / `ConfigError`),
carrying the context message the code attaches. -/
inductive Err
  | ioError (msg : String)
  | configError (msg : String)
deriving Repr, DecidableEq

/-- What `format!("{}", e)` shows for an `anyhow` error: the outermost
context message. -/
def Err.display : Err → String
  | .ioError m => m
  | .configError m => m

/-- Translation of `load_text_file` (src/storage.rs:39-52): read the whole file, adding
the context `Failed to read file: {path}` on failure. -/
def load_text_file (p : Path) (fs : FS) : Except Err String :=
  match FS.readFile fs p with
  | some content => .ok content
  | none => .error (.ioError ("Failed to read file: " ++ Path.display p))

/-- Translation of `save_text_file` (src/storage.rs:65-84): if the path has a parent,
`create_dir_all` it (context `Failed to create directory: {parent}`),
then `fs::write` the content (context `Failed to write file: {path}`). -/
def save_text_file (p : Path) (content : String) (fs : FS) : Except Err FS :=
  match Path.parent p with
  | some parent =>
    match FS.createDirAll fs parent with
    | none => .error (.ioError ("Failed to create directory: " ++ Path.display parent))
    | some fs1 =>
      match FS.writeFile fs1 p content with
      | none => .error (.ioError ("Failed to write file: " ++ Path.display p))
      | some fs2 => .ok fs2
  | none =>
    match FS.writeFile fs p content with
    | none => .error (.ioError ("Failed to write file: " ++ Path.display p))
    | some fs2 => .ok fs2

/-- Translation of `get_autosave_dir` (src/storage.rs:99-121): resolve the platform data
directory for the com.BookScript.BookScript namespace (`env`), append
`projects`, and `create_dir_all` it. `ConfigError` when the platform
directory cannot be determined; `IOError` when creating the directory
fails. Returns the directory together with the updated filesystem. -/
def get_autosave_dir (env : Option Path) (fs : FS) : Except Err (Path × FS) :=
  match env with
  | none => .error (.configError "Could not determine user data directory")
  | some dataDir =>
    let autosaveDir := dataDir ++ ["projects"]
    match FS.createDirAll fs autosaveDir with
    | none =>
      .error (.ioError ("Failed to create autosave directory: " ++ Path.display autosaveDir))
    | some fs' => .ok (autosaveDir, fs')

/-- Observable events of an operation, in program order: buffer-lock
acquisition/release and the disk-touching calls. -/
inductive Ev
  | sleep (secs : Nat)       -- thread::sleep
  | resolveDir               -- get_autosave_dir (ProjectDirs + create_dir_all)
  | lockAcquire              -- text_content.lock()
  | lockRelease              -- the MutexGuard is dropped
  | diskRead (p : Path)      -- load_text_file call
  | diskWrite (p : Path)     -- save_text_file call
deriving Repr, DecidableEq

/-- Which events touch the disk. -/
def Ev.touchesDisk : Ev → Bool
  | .resolveDir => true
  | .diskRead _ => true
  | .diskWrite _ => true
  | _ => false

/-- Returns `true` when some disk-I/O event of the trace happens while the buffer
lock is held (lock depth tracked left to right). -/
def ioUnderLock (evs : List Ev) : Bool :=
  (evs.foldl
    (fun (acc : Nat × Bool) e =>
      match e with
      | .lockAcquire => (acc.1 + 1, acc.2)
      | .lockRelease => (acc.1 - 1, acc.2)
      | e => (acc.1, acc.2 || (Ev.touchesDisk e && acc.1 > 0)))
    (0, false)).2

/-- The `App` struct (src/app.rs:27-42). `text_content` is the value inside
the `Arc<Mutex<String>>` shared with the autosave thread; synchronisation is
captured by the lock events the operations emit. -/
structure AppState where
  text_content : String
  current_file_path : Option Path
  status_message : String
deriving Repr, DecidableEq

/-- Translation of `App::new` (src/app.rs:56-90): empty buffer, no current file, status
`Ready`. (The autosave-thread spawn is modelled at the system level by
`autosaveStep`, which runs against the same shared buffer.) -/
def App.new : AppState :=
  { text_content := ""
    current_file_path := none
    status_message := "Ready" }

/-- Translation of `App::load_file` (src/app.rs:96-120): read the file; on success replace
the buffer under the lock, record the path and a `Loaded:` status; on
failure only set the `Error loading file:` status. Returns the new state
and the emitted event trace. -/
def App.load_file (s : AppState) (p : Path) (fs : FS) : AppState × List Ev :=
  match load_text_file p fs with
  | .ok content =>
    ({ s with
        text_content := content          -- *self.text_content.lock().unwrap() = content
        current_file_path := some p
        status_message := "Loaded: " ++ Path.display p },
     [.diskRead p, .lockAcquire, .lockRelease])
  | .error e =>
    ({ s with status_message := "Error loading file: " ++ Err.display e },
     [.diskRead p])

/-- Translation of `App::save_file` (src/app.rs:123-140): lock the mutex, clone the string,
release; then attempt the save; on success record the path and a `Saved:`
status, on failure only set the `Error saving file:` status. Returns the
new state, the (possibly updated) filesystem and the event trace. -/
def App.save_file (s : AppState) (p : Path) (fs : FS) : (AppState × FS) × List Ev :=
  -- let content = self.text_content.lock().unwrap().clone();
  let content := s.text_content
  match save_text_file p content fs with
  | .ok fs' =>
    (({ s with
         current_file_path := some p
         status_message := "Saved: " ++ Path.display p }, fs'),
     [.lockAcquire, .lockRelease, .diskWrite p])
  | .error e =>
    (({ s with status_message := "Error saving file: " ++ Err.display e }, fs),
     [.lockAcquire, .lockRelease, .diskWrite p])

/-- The discrete user actions the GUI routes into the session
(src/app.rs:164-262): the Open and Save As menu buttons, typing in the
bound text control, and the About button (which only sets the status). -/
inductive UiAction
  | openFile (p : Path)
  | saveAs (p : Path)
  | editText (t : String)
  | about

/-- One user action applied to the session state and filesystem. -/
def App.step (s : AppState) (fs : FS) : UiAction → AppState × FS
  | .openFile p => ((App.load_file s p fs).1, fs)
  | .saveAs p => (App.save_file s p fs).1
  | .editText t => ({ s with text_content := t }, fs)
  | .about =>
    ({ s with status_message := "BookScript Writer v0.1.0 - A simple writing app" }, fs)

/-- A sequence of user actions, run left to right. -/
def App.runActions (s : AppState) (fs : FS) : List UiAction → AppState × FS
  | [] => (s, fs)
  | a :: acts =>
    let sfs := App.step s fs a
    App.runActions sfs.1 sfs.2 acts

/-- The whole system as the autosave thread sees it: the editor state
(whose `text_content` is the shared buffer) and the filesystem. -/
structure Sys where
  app : AppState
  fs : FS
deriving Repr, DecidableEq

/-- One cycle of `autosave_thread` (src/storage.rs:144-203): sleep 60 s;
`get_autosave_dir` (on error, log `Autosave error:` and `continue`); build
`<dir>/autosave.bks`; lock, clone the buffer, release; `save_text_file`
(log `Autosaved to:` on success, `Autosave failed:` on error). Returns
the new system state, the log lines of the cycle, and the event trace. -/
def autosaveStep (env : Option Path) (σ : Sys) : Sys × List String × List Ev :=
  match get_autosave_dir env σ.fs with
  | .error e =>
    (σ, ["Autosave error: " ++ Err.display e], [.sleep 60, .resolveDir])
  | .ok (dir, fs1) =>
    let autosave_path := dir ++ ["autosave.bks"]
    -- let content = { let guard = text_content.lock().unwrap(); guard.clone() };
    let content := σ.app.text_content
    match save_text_file autosave_path content fs1 with
    | .ok fs2 =>
      ({ σ with fs := fs2 },
       ["Autosaved to: " ++ Path.display autosave_path],
       [.sleep 60, .resolveDir, .lockAcquire, .lockRelease, .diskWrite autosave_path])
    | .error e =>
      ({ σ with fs := fs1 },
       ["Autosave failed: " ++ Err.display e],
       [.sleep 60, .resolveDir, .lockAcquire, .lockRelease, .diskWrite autosave_path])

/-- The autosave loop, one entry of `envs` per cycle (the platform-directory
resolution may in principle differ between cycles). Collects every log
line. The loop body never exits: each cycle ends back at the sleep. -/
def autosaveRun (σ : Sys) : List (Option Path) → Sys × List String
  | [] => (σ, [])
  | env :: rest =>
    let r := autosaveStep env σ
    let r' := autosaveRun r.1 rest
    (r'.1, r.2.1 ++ r'.2)

/-! ### Filesystem lemmas -/

theorem FS.lookup_insert_self (fs : FS) (p : Path) (e : Entry) :
    FS.lookup (FS.insert fs p e) p = some e := by
  simp [FS.insert, FS.lookup]

theorem FS.lookup_insert_ne (fs : FS) (p q : Path) (e : Entry) (h : q ≠ p) :
    FS.lookup (FS.insert fs p e) q = FS.lookup fs q := by
  simp [FS.insert, FS.lookup, h]

theorem FS.mkdirOne_preserves (fs fs' : FS) (p : Path)
    (h : FS.mkdirOne fs p = some fs') :
    ∀ q en, FS.lookup fs q = some en → FS.lookup fs' q = some en := by
  intro q en hq
  unfold FS.mkdirOne at h
  cases hlp : FS.lookup fs p with
  | none =>
    rw [hlp] at h
    cases h
    by_cases hqp : q = p
    · rw [hqp, hlp] at hq; cases hq
    · rw [FS.lookup_insert_ne fs p q .dir hqp]; exact hq
  | some e =>
    cases e with
    | file c => rw [hlp] at h; cases h
    | dir => rw [hlp] at h; cases h; exact hq

theorem FS.mkdirOne_dir (fs fs' : FS) (p : Path)
    (h : FS.mkdirOne fs p = some fs') :
    FS.lookup fs' p = some .dir := by
  unfold FS.mkdirOne at h
  cases hlp : FS.lookup fs p with
  | none =>
    rw [hlp] at h; cases h; exact FS.lookup_insert_self fs p .dir
  | some e =>
    cases e with
    | file c => rw [hlp] at h; cases h
    | dir => rw [hlp] at h; cases h; exact hlp

theorem FS.createDirAllAux_preserves (rest done : Path) (fs fs' : FS)
    (h : FS.createDirAllAux done rest fs = some fs') :
    ∀ q en, FS.lookup fs q = some en → FS.lookup fs' q = some en := by
  induction rest generalizing done fs with
  | nil => unfold FS.createDirAllAux at h; cases h; intro q en hq; exact hq
  | cons c cs ih =>
    intro q en hq
    unfold FS.createDirAllAux at h
    cases hmk : FS.mkdirOne fs (done ++ [c]) with
    | none => rw [hmk] at h; cases h
    | some fs2 =>
      rw [hmk] at h
      exact ih (done ++ [c]) fs2 h q en (FS.mkdirOne_preserves fs fs2 _ hmk q en hq)

theorem FS.createDirAllAux_dirs (rest done : Path) (fs fs' : FS)
    (h : FS.createDirAllAux done rest fs = some fs') :
    ∀ k, 1 ≤ k → k ≤ rest.length → FS.lookup fs' (done ++ rest.take k) = some .dir := by
  induction rest generalizing done fs with
  | nil => intro k h1 hk; simp at hk; omega
  | cons c cs ih =>
    intro k h1 hk
    unfold FS.createDirAllAux at h
    cases hmk : FS.mkdirOne fs (done ++ [c]) with
    | none => rw [hmk] at h; cases h
    | some fs2 =>
      rw [hmk] at h
      match k, h1 with
      | 1, _ =>
        have : done ++ (c :: cs).take 1 = done ++ [c] := by simp
        rw [this]
        exact FS.createDirAllAux_preserves cs (done ++ [c]) fs2 fs' h _ _
          (FS.mkdirOne_dir fs fs2 _ hmk)
      | (j + 2), _ =>
        have hj : 1 ≤ j + 1 := by omega
        have hj' : j + 1 ≤ cs.length := by simp at hk; omega
        have hres := ih (done ++ [c]) fs2 h (j + 1) hj hj'
        rw [List.take_succ_cons, List.append_cons]
        exact hres

theorem FS.createDirAllAux_of_dirs (rest done : Path) (fs : FS)
    (h : ∀ k, 1 ≤ k → k ≤ rest.length → FS.lookup fs (done ++ rest.take k) = some .dir) :
    FS.createDirAllAux done rest fs = some fs := by
  induction rest generalizing done with
  | nil => rfl
  | cons c cs ih =>
    have h1 : FS.lookup fs (done ++ [c]) = some .dir := by
      have := h 1 (by omega) (by simp)
      simpa using this
    unfold FS.createDirAllAux
    rw [show FS.mkdirOne fs (done ++ [c]) = some fs by unfold FS.mkdirOne; rw [h1]]
    apply ih (done ++ [c])
    intro k hk1 hk2
    have hd := h (k + 1) (by omega) (by simp; omega)
    rw [List.take_succ_cons, List.append_cons] at hd
    exact hd

theorem FS.createDirAll_idem (p : Path) (fs fs' : FS)
    (h : FS.createDirAll fs p = some fs') :
    FS.createDirAll fs' p = some fs' :=
  FS.createDirAllAux_of_dirs p [] fs'
    (fun k h1 hk => FS.createDirAllAux_dirs p [] fs fs' h k h1 hk)

theorem FS.createDirAllAux_file_fails (rest done : Path) (fs : FS) (c : String)
    (hfile : FS.lookup fs (done ++ rest) = some (.file c)) (hne : rest ≠ []) :
    FS.createDirAllAux done rest fs = none := by
  induction rest generalizing done fs with
  | nil => exact absurd rfl hne
  | cons a cs ih =>
    unfold FS.createDirAllAux
    cases hmk : FS.mkdirOne fs (done ++ [a]) with
    | none => rfl
    | some fs2 =>
      cases cs with
      | nil =>
        exfalso
        unfold FS.mkdirOne at hmk
        rw [hfile] at hmk
        simp at hmk
      | cons b bs =>
        have hpres := FS.mkdirOne_preserves fs fs2 (done ++ [a]) hmk (done ++ a :: b :: bs)
          (.file c) hfile
        rw [List.append_cons] at hpres
        exact ih (done ++ [a]) fs2 hpres (by simp)

theorem Path.parent_cons (a : String) (l : List String) :
    Path.parent (a :: l) = some ((a :: l).dropLast) := rfl

theorem FS.writeFile_eq (fs fs' : FS) (p : Path) (c : String)
    (h : FS.writeFile fs p c = some fs') :
    fs' = FS.insert fs p (.file c) := by
  unfold FS.writeFile at h
  cases p with
  | nil => cases h
  | cons a l =>
    by_cases h1 : FS.isDir fs (a :: l)
    · simp [h1] at h
    · by_cases h2 : FS.isDir fs (a :: l).dropLast
      · simp [h1, h2] at h; exact h.symm
      · simp [h1, h2] at h

/-! ### Storage-layer lemmas -/

theorem save_text_file_ok_cases (p : Path) (c : String) (fs fs' : FS)
    (h : save_text_file p c fs = .ok fs') :
    ∃ fs1, FS.writeFile fs1 p c = some fs' ∧ fs' = FS.insert fs1 p (.file c) ∧
      ((Path.parent p = none ∧ fs1 = fs) ∨
       (∃ par, Path.parent p = some par ∧ FS.createDirAll fs par = some fs1)) := by
  unfold save_text_file at h
  split at h
  · -- Path.parent p = some parent
    rename_i par hp
    split at h
    · exact Except.noConfusion h
    · split at h
      · exact Except.noConfusion h
      · rename_i fs1 hcd xw fs2 hw
        refine ⟨fs1, ?_, ?_, Or.inr ⟨par, hp, hcd⟩⟩
        · rw [hw]; injection h with h'; rw [h']
        · injection h with h'
          rw [← h']
          exact FS.writeFile_eq fs1 fs2 p c hw
  · -- Path.parent p = none
    rename_i hp
    split at h
    · exact Except.noConfusion h
    · rename_i fs2 hw
      refine ⟨fs, ?_, ?_, Or.inl ⟨hp, rfl⟩⟩
      · rw [hw]; injection h with h'; rw [h']
      · injection h with h'
        rw [← h']
        exact FS.writeFile_eq fs fs2 p c hw

theorem Path.parent_concat (l : List String) (a : String) :
    Path.parent (l ++ [a]) = some l := by
  have h1 : Path.parent (l ++ [a]) = some ((l ++ [a]).dropLast) := by
    cases hl : l ++ [a] with
    | nil => simp at hl
    | cons x xs => exact Path.parent_cons x xs
  rw [h1]
  simp

theorem FS.isDir_of_ne_nil (fs : FS) (p : Path) (h : p ≠ []) :
    FS.isDir fs p = (FS.lookup fs p == some .dir) := by
  cases p with
  | nil => exact absurd rfl h
  | cons a l => rfl

theorem FS.writeFile_of_ne_nil (fs : FS) (p : Path) (c : String) (h : p ≠ []) :
    FS.writeFile fs p c =
      (if FS.isDir fs p then none
       else if FS.isDir fs p.dropLast then some (FS.insert fs p (.file c)) else none) := by
  cases p with
  | nil => exact absurd rfl h
  | cons a l => rfl

theorem FS.createDirAll_last_dir (p : Path) (fs fs' : FS) (hne : p ≠ [])
    (h : FS.createDirAll fs p = some fs') :
    FS.lookup fs' p = some .dir := by
  have := FS.createDirAllAux_dirs p [] fs fs' h p.length
    (by cases p with | nil => exact absurd rfl hne | cons a l => simp) (le_refl _)
  simpa using this

/-! ### Claim theorems -/

/-- C4: for every text `c` and path `p`, saving `c` to `p` with the
Persistence Adapter's save and then loading `p` with its load yields
exactly `c` (stated for every save that completes, i.e. returns `ok`). -/
theorem save_load_roundtrip (p : Path) (c : String) (fs fs' : FS)
    (h : save_text_file p c fs = .ok fs') :
    load_text_file p fs' = .ok c := by
  obtain ⟨fs1, hw, heq, _⟩ := save_text_file_ok_cases p c fs fs' h
  subst heq
  simp [load_text_file, FS.readFile, FS.lookup_insert_self]

/-- Witness for C4: on an empty filesystem, saving `hi` to `a/b.txt` then
loading it back yields `hi`. -/
theorem save_load_roundtrip_witness :
    save_text_file ["a", "b.txt"] "hi" [] =
      .ok [(["a", "b.txt"], Entry.file "hi"), (["a"], Entry.dir)] ∧
    load_text_file ["a", "b.txt"]
      [(["a", "b.txt"], Entry.file "hi"), (["a"], Entry.dir)] = .ok "hi" :=
  ⟨rfl, save_load_roundtrip ["a", "b.txt"] "hi" []
    [(["a", "b.txt"], Entry.file "hi"), (["a"], Entry.dir)] rfl⟩

/-- C7: a successful save leaves the full content at the path (overwriting
whatever was there) with every parent prefix existing as a directory; and
when the parent exists as a non-directory file, save fails with IOError. -/
theorem save_creates_parents_then_writes (p : Path) (c : String) (fs : FS) :
    (∀ fs', save_text_file p c fs = .ok fs' →
      FS.lookup fs' p = some (.file c) ∧
      ∀ k, 1 ≤ k → k + 1 ≤ p.length → FS.lookup fs' (p.take k) = some .dir) ∧
    (∀ par cf, Path.parent p = some par → par ≠ [] →
      FS.lookup fs par = some (.file cf) →
      ∃ m, save_text_file p c fs = .error (.ioError m)) := by
  constructor
  · intro fs' h
    obtain ⟨fs1, hw, heq, hcases⟩ := save_text_file_ok_cases p c fs fs' h
    subst heq
    refine ⟨FS.lookup_insert_self fs1 p _, ?_⟩
    intro k hk1 hk2
    have hpne : p ≠ [] := by
      intro hnil; subst hnil; simp [FS.writeFile] at hw
    have hkne : p.take k ≠ p := by
      intro hEq
      have hlen := congrArg List.length hEq
      rw [List.length_take] at hlen
      omega
    rw [FS.lookup_insert_ne fs1 p (p.take k) _ hkne]
    cases hcases with
    | inl hc =>
      obtain ⟨hpn, _⟩ := hc
      cases p with
      | nil => exact absurd rfl hpne
      | cons a l => rw [Path.parent_cons] at hpn; cases hpn
    | inr hc =>
      obtain ⟨par, hpp, hcd⟩ := hc
      have hpar : par = p.dropLast := by
        cases p with
        | nil => exact absurd rfl hpne
        | cons a l => rw [Path.parent_cons] at hpp; injection hpp with h'; rw [← h']
      subst hpar
      have hklen : k ≤ p.dropLast.length := by rw [List.length_dropLast]; omega
      have hdirs := FS.createDirAllAux_dirs p.dropLast [] fs fs1 hcd k hk1 hklen
      rw [List.nil_append] at hdirs
      have htk : p.dropLast.take k = p.take k := by
        rw [List.dropLast_eq_take, List.take_take]
        congr 1
        omega
      rw [htk] at hdirs
      exact hdirs
  · intro par cf hp hne hfile
    have hcd : FS.createDirAll fs par = none := by
      unfold FS.createDirAll
      exact FS.createDirAllAux_file_fails par [] fs cf (by simpa using hfile) hne
    refine ⟨"Failed to create directory: " ++ Path.display par, ?_⟩
    simp only [save_text_file, hp, hcd]

/-- Witness for C7: saving `x` to `a/b/f.txt` on an empty filesystem
creates the directories `a` and `a/b`; saving under a parent that is a
file fails with IOError. -/
theorem save_creates_parents_then_writes_witness :
    (FS.lookup
        [(["a", "b", "f.txt"], Entry.file "x"), (["a", "b"], Entry.dir), (["a"], Entry.dir)]
        ["a", "b", "f.txt"] = some (Entry.file "x") ∧
      ∀ k, 1 ≤ k → k + 1 ≤ (["a", "b", "f.txt"] : Path).length →
        FS.lookup
          [(["a", "b", "f.txt"], Entry.file "x"), (["a", "b"], Entry.dir), (["a"], Entry.dir)]
          ((["a", "b", "f.txt"] : Path).take k) = some Entry.dir) ∧
    (∃ m, save_text_file ["a", "f.txt"] "y" [(["a"], Entry.file "z")] = .error (.ioError m)) :=
  ⟨(save_creates_parents_then_writes ["a", "b", "f.txt"] "x" []).1 _ rfl,
   (save_creates_parents_then_writes ["a", "f.txt"] "y" [(["a"], Entry.file "z")]).2
     ["a"] "z" rfl (by decide) rfl⟩

/-- C5: when loading `p` fails, `load_file` leaves the Shared Text Buffer
and the Current File Reference unchanged and sets the Status Message to
an error text containing the attempted path. -/
theorem load_failure_leaves_state (s : AppState) (p : Path) (fs : FS) (e : Err)
    (h : load_text_file p fs = .error e) :
    ((App.load_file s p fs).1).text_content = s.text_content ∧
    ((App.load_file s p fs).1).current_file_path = s.current_file_path ∧
    ∃ a b, ((App.load_file s p fs).1).status_message = a ++ (Path.display p ++ b) := by
  have he : e = .ioError ("Failed to read file: " ++ Path.display p) := by
    unfold load_text_file at h
    split at h
    · exact Except.noConfusion h
    · injection h with h'
      exact h'.symm
  subst he
  simp only [App.load_file, h]
  refine ⟨trivial, trivial, "Error loading file: Failed to read file: ", "", ?_⟩
  simp only [Err.display]
  rw [String.append_empty, ← String.append_assoc]
  rfl

/-- Witness for C5: loading the absent `missing.bks` from an empty
filesystem leaves the fresh session untouched except for the status. -/
theorem load_failure_leaves_state_witness :
    ((App.load_file App.new ["missing.bks"] []).1).text_content = App.new.text_content ∧
    ((App.load_file App.new ["missing.bks"] []).1).current_file_path =
      App.new.current_file_path ∧
    ∃ a b, ((App.load_file App.new ["missing.bks"] []).1).status_message =
      a ++ (Path.display ["missing.bks"] ++ b) :=
  load_failure_leaves_state App.new ["missing.bks"] []
    (.ioError ("Failed to read file: " ++ Path.display ["missing.bks"])) rfl

/-- C6: `save_file` never mutates the Shared Text Buffer, and on a
successful save it records the path as the Current File Reference. -/
theorem save_as_frame (s : AppState) (p : Path) (fs : FS) :
    ((App.save_file s p fs).1.1).text_content = s.text_content ∧
    (∀ fs', save_text_file p s.text_content fs = .ok fs' →
      ((App.save_file s p fs).1.1).current_file_path = some p ∧
      (App.save_file s p fs).1.2 = fs') := by
  cases hs : save_text_file p s.text_content fs with
  | ok fs2 =>
    refine ⟨by simp only [App.save_file, hs], ?_⟩
    intro fs' h
    injection h with h'
    subst h'
    exact ⟨by simp only [App.save_file, hs], by simp only [App.save_file, hs]⟩
  | error e =>
    refine ⟨by simp only [App.save_file, hs], ?_⟩
    intro fs' h
    exact Except.noConfusion h

/-- Witness for C6: saving the fresh (empty) buffer to `out.bks` keeps the
buffer empty and records `out.bks` as the current file. -/
theorem save_as_frame_witness :
    ((App.save_file App.new ["out.bks"] []).1.1).text_content = App.new.text_content ∧
    (((App.save_file App.new ["out.bks"] []).1.1).current_file_path = some ["out.bks"] ∧
      (App.save_file App.new ["out.bks"] []).1.2 = [((["out.bks"] : Path), Entry.file "")]) :=
  ⟨(save_as_frame App.new ["out.bks"] []).1,
   (save_as_frame App.new ["out.bks"] []).2 [((["out.bks"] : Path), Entry.file "")] rfl⟩

/-- C10: when `save_file` fails, the resulting session state is the old one
with only the Status Message replaced — the Current File Reference (and
the buffer) are left unchanged. -/
theorem save_as_failure_frame (s : AppState) (p : Path) (fs : FS) (e : Err)
    (h : save_text_file p s.text_content fs = .error e) :
    (App.save_file s p fs).1.1 =
      { s with status_message := "Error saving file: " ++ Err.display e } := by
  simp only [App.save_file, h]

/-- Witness for C10: saving to the root path fails, and the failing save
leaves everything but the status message unchanged. -/
theorem save_as_failure_frame_witness :
    (App.save_file App.new [] []).1.1 =
      { App.new with status_message :=
          "Error saving file: " ++
            Err.display (.ioError ("Failed to write file: " ++ Path.display [])) } :=
  save_as_failure_frame App.new [] []
    (.ioError ("Failed to write file: " ++ Path.display [])) rfl

/-- C9: the Current File Reference starts out absent, and a session step
changes it only when the action is an `openFile` or `saveAs` whose
persistence call succeeds — in which case it becomes the path of that action. -/
theorem current_file_ref_only_set_by_success :
    App.new.current_file_path = none ∧
    ∀ s fs a, ((App.step s fs a).1).current_file_path ≠ s.current_file_path →
      ∃ p, ((a = .openFile p ∧ ∃ t, load_text_file p fs = .ok t) ∨
            (a = .saveAs p ∧ ∃ fs', save_text_file p s.text_content fs = .ok fs')) ∧
        ((App.step s fs a).1).current_file_path = some p := by
  refine ⟨rfl, ?_⟩
  intro s fs a hne
  cases a with
  | openFile p =>
    cases hl : load_text_file p fs with
    | ok t =>
      refine ⟨p, Or.inl ⟨rfl, t, hl⟩, ?_⟩
      simp only [App.step, App.load_file, hl]
    | error e =>
      exfalso
      apply hne
      simp only [App.step, App.load_file, hl]
  | saveAs p =>
    cases hs : save_text_file p s.text_content fs with
    | ok fs2 =>
      refine ⟨p, Or.inr ⟨rfl, fs2, hs⟩, ?_⟩
      simp only [App.step, App.save_file, hs]
    | error e =>
      exfalso
      apply hne
      simp only [App.step, App.save_file, hs]
  | editText t => exact absurd rfl hne
  | about => exact absurd rfl hne

/-- Witness for C9: opening the existing `t.bks` from a fresh session does
change the Current File Reference, and the theorem attributes it to the
successful open. -/
theorem current_file_ref_only_set_by_success_witness :
    ∃ p, ((UiAction.openFile ["t.bks"] = UiAction.openFile p ∧
            ∃ t, load_text_file p [((["t.bks"] : Path), Entry.file "x")] = .ok t) ∨
          (UiAction.openFile ["t.bks"] = UiAction.saveAs p ∧
            ∃ fs', save_text_file p App.new.text_content
              [((["t.bks"] : Path), Entry.file "x")] = .ok fs')) ∧
      ((App.step App.new [((["t.bks"] : Path), Entry.file "x")]
          (.openFile ["t.bks"])).1).current_file_path = some p :=
  current_file_ref_only_set_by_success.2 App.new
    [((["t.bks"] : Path), Entry.file "x")] (.openFile ["t.bks"]) (by decide)

/-- C8: resolving the autosave directory yields the platform data directory
of the fixed namespace joined with `projects`, and fails with ConfigError
exactly when the platform user-directory facility cannot be determined. -/
theorem get_autosave_dir_spec (env : Option Path) (fs : FS) :
    ((∃ m, get_autosave_dir env fs = .error (.configError m)) ↔ env = none) ∧
    (∀ d dir fs', env = some d → get_autosave_dir env fs = .ok (dir, fs') →
      dir = d ++ ["projects"]) := by
  cases env with
  | none =>
    refine ⟨⟨fun _ => rfl, fun _ => ⟨"Could not determine user data directory", rfl⟩⟩, ?_⟩
    intro d dir fs' hd
    exact Option.noConfusion hd
  | some d0 =>
    constructor
    · constructor
      · rintro ⟨m, hm⟩
        simp only [get_autosave_dir] at hm
        split at hm
        · injection hm with h'
          exact Err.noConfusion h'
        · exact Except.noConfusion hm
      · intro h
        exact Option.noConfusion h
    · intro d dir fs' hd hok
      injection hd with hd'
      subst hd'
      simp only [get_autosave_dir] at hok
      split at hok
      · exact Except.noConfusion hok
      · injection hok with h'
        rw [Prod.mk.injEq] at h'
        exact h'.1.symm

/-- Witness for C8: with no resolvable platform directory the result is a
ConfigError; with `home` resolvable, the directory is `home/projects`. -/
theorem get_autosave_dir_spec_witness :
    ((∃ m, get_autosave_dir none [] = .error (.configError m)) ↔ (none : Option Path) = none) ∧
    (["home", "projects"] : Path) = ["home"] ++ ["projects"] :=
  ⟨(get_autosave_dir_spec none []).1,
   (get_autosave_dir_spec (some ["home"]) []).2 ["home"] ["home", "projects"]
     [((["home", "projects"] : Path), Entry.dir), ((["home"] : Path), Entry.dir)] rfl rfl⟩

/-- C1: no lock is held across disk I/O: `save_file` emits exactly
lock-acquire, lock-release, then its single write, and neither a
`save_file` trace nor any autosave-cycle trace ever performs disk I/O
while the buffer lock is held. -/
theorem no_lock_across_io (s : AppState) (p : Path) (fs : FS)
    (env : Option Path) (σ : Sys) :
    (App.save_file s p fs).2 = [.lockAcquire, .lockRelease, .diskWrite p] ∧
    ioUnderLock ((App.save_file s p fs).2) = false ∧
    ioUnderLock ((autosaveStep env σ).2.2) = false := by
  refine ⟨?_, ?_, ?_⟩
  · cases hs : save_text_file p s.text_content fs with
    | ok fs2 => simp only [App.save_file, hs]
    | error e => simp only [App.save_file, hs]
  · cases hs : save_text_file p s.text_content fs with
    | ok fs2 => simp only [App.save_file, hs]; rfl
    | error e => simp only [App.save_file, hs]; rfl
  · cases hg : get_autosave_dir env σ.fs with
    | error e => simp only [autosaveStep, hg]; rfl
    | ok pr =>
      obtain ⟨dir, fs1⟩ := pr
      cases hs : save_text_file (dir ++ ["autosave.bks"]) σ.app.text_content fs1 with
      | ok fs2 => simp only [autosaveStep, hg, hs]; rfl
      | error e => simp only [autosaveStep, hg, hs]; rfl

/-- Every autosave cycle logs exactly one line, whatever happens. -/
theorem autosaveStep_log_once (env : Option Path) (σ : Sys) :
    ((autosaveStep env σ).2.1).length = 1 := by
  cases hg : get_autosave_dir env σ.fs with
  | error e => simp only [autosaveStep, hg]; rfl
  | ok pr =>
    obtain ⟨dir, fs1⟩ := pr
    cases hs : save_text_file (dir ++ ["autosave.bks"]) σ.app.text_content fs1 with
    | ok fs2 => simp only [autosaveStep, hg, hs]; rfl
    | error e => simp only [autosaveStep, hg, hs]; rfl

/-- The autosave loop completes every scheduled cycle: one log line per
entry of `envs`, no matter which cycles fail. -/
theorem autosaveRun_length (envs : List (Option Path)) (σ : Sys) :
    ((autosaveRun σ envs).2).length = envs.length := by
  induction envs generalizing σ with
  | nil => rfl
  | cons env rest ih =>
    simp only [autosaveRun, List.length_append, List.length_cons]
    rw [autosaveStep_log_once, ih]
    omega

/-- C2: autosave failures are non-fatal and invisible to the session: the
editor state (hence the Status Message) is never modified by a cycle; a
directory-resolution failure is logged as `Autosave error:` with exactly
one disk-I/O attempt in the cycle (no retry); a write failure is logged as
`Autosave failed:` after exactly two disk-I/O attempts (one resolution,
one write — no retry); and the loop keeps producing exactly one cycle per
wake-up forever, regardless of failures. -/
theorem autosave_failures_nonfatal (env : Option Path) (σ : Sys) :
    (autosaveStep env σ).1.app = σ.app ∧
    (∀ e, get_autosave_dir env σ.fs = .error e →
      (autosaveStep env σ).1 = σ ∧
      (autosaveStep env σ).2.1 = ["Autosave error: " ++ Err.display e] ∧
      ((autosaveStep env σ).2.2).countP Ev.touchesDisk = 1) ∧
    (∀ dir fs1 e, get_autosave_dir env σ.fs = .ok (dir, fs1) →
      save_text_file (dir ++ ["autosave.bks"]) σ.app.text_content fs1 = .error e →
      (autosaveStep env σ).1.fs = fs1 ∧
      (autosaveStep env σ).2.1 = ["Autosave failed: " ++ Err.display e] ∧
      ((autosaveStep env σ).2.2).countP Ev.touchesDisk = 2) ∧
    (∀ envs, ((autosaveRun σ envs).2).length = envs.length) := by
  refine ⟨?_, ?_, ?_, fun envs => autosaveRun_length envs σ⟩
  · cases hg : get_autosave_dir env σ.fs with
    | error e => simp only [autosaveStep, hg]
    | ok pr =>
      obtain ⟨dir, fs1⟩ := pr
      cases hs : save_text_file (dir ++ ["autosave.bks"]) σ.app.text_content fs1 with
      | ok fs2 => simp only [autosaveStep, hg, hs]
      | error e => simp only [autosaveStep, hg, hs]
  · intro e hg
    simp only [autosaveStep, hg]
    exact ⟨trivial, trivial, rfl⟩
  · intro dir fs1 e hg hs
    simp only [autosaveStep, hg, hs]
    exact ⟨trivial, trivial, rfl⟩

/-- Witness for C2: with no resolvable platform directory the cycle leaves
the system untouched and logs one `Autosave error:` line after a single
I/O attempt; with `d` resolvable but a directory sitting at the autosave
path, the cycle logs one `Autosave failed:` line after two I/O attempts. -/
theorem autosave_failures_nonfatal_witness :
    ((autosaveStep none ⟨App.new, []⟩).1 = ⟨App.new, []⟩ ∧
      (autosaveStep none ⟨App.new, []⟩).2.1 =
        ["Autosave error: " ++
          Err.display (.configError "Could not determine user data directory")] ∧
      ((autosaveStep none ⟨App.new, []⟩).2.2).countP Ev.touchesDisk = 1) ∧
    ((autosaveStep (some ["d"])
        ⟨App.new, [((["d", "projects", "autosave.bks"] : Path), Entry.dir)]⟩).1.fs =
        [((["d", "projects"] : Path), Entry.dir), ((["d"] : Path), Entry.dir),
         ((["d", "projects", "autosave.bks"] : Path), Entry.dir)] ∧
      (autosaveStep (some ["d"])
        ⟨App.new, [((["d", "projects", "autosave.bks"] : Path), Entry.dir)]⟩).2.1 =
        ["Autosave failed: " ++
          Err.display (.ioError ("Failed to write file: " ++
            Path.display (["d", "projects"] ++ ["autosave.bks"])))] ∧
      ((autosaveStep (some ["d"])
        ⟨App.new, [((["d", "projects", "autosave.bks"] : Path), Entry.dir)]⟩).2.2).countP
        Ev.touchesDisk = 2) :=
  ⟨(autosave_failures_nonfatal none ⟨App.new, []⟩).2.1
      (.configError "Could not determine user data directory") rfl,
   (autosave_failures_nonfatal (some ["d"])
      ⟨App.new, [((["d", "projects", "autosave.bks"] : Path), Entry.dir)]⟩).2.2.1
      (["d", "projects"])
      [((["d", "projects"] : Path), Entry.dir), ((["d"] : Path), Entry.dir),
       ((["d", "projects", "autosave.bks"] : Path), Entry.dir)]
      (.ioError ("Failed to write file: " ++
        Path.display (["d", "projects"] ++ ["autosave.bks"])))
      rfl rfl⟩

/-- C3: an autosave cycle against a resolvable platform directory `d`
performs exactly sleep 60 s, resolve-and-create the autosave directory,
lock, release, write — in that order — and ends with the buffer snapshot
stored at `d/projects/autosave.bks` (overwriting any prior autosave),
with the editor state untouched. -/
theorem autosave_cycle_order (d : Path) (σ : Sys) (fs1 : FS)
    (hcd : FS.createDirAll σ.fs (d ++ ["projects"]) = some fs1)
    (hnd : FS.lookup fs1 ((d ++ ["projects"]) ++ ["autosave.bks"]) ≠ some .dir) :
    (autosaveStep (some d) σ).2.2 =
      [.sleep 60, .resolveDir, .lockAcquire, .lockRelease,
        .diskWrite ((d ++ ["projects"]) ++ ["autosave.bks"])] ∧
    FS.lookup ((autosaveStep (some d) σ).1.fs) ((d ++ ["projects"]) ++ ["autosave.bks"]) =
      some (.file σ.app.text_content) ∧
    (autosaveStep (some d) σ).1.app = σ.app := by
  have hga : get_autosave_dir (some d) σ.fs = .ok (d ++ ["projects"], fs1) := by
    simp only [get_autosave_dir, hcd]
  have hpd : FS.lookup fs1 (d ++ ["projects"]) = some .dir :=
    FS.createDirAll_last_dir _ _ _ (by simp) hcd
  have hne : ((d ++ ["projects"]) ++ ["autosave.bks"] : Path) ≠ [] := by simp
  have hwrite : FS.writeFile fs1 ((d ++ ["projects"]) ++ ["autosave.bks"])
      σ.app.text_content =
      some (FS.insert fs1 ((d ++ ["projects"]) ++ ["autosave.bks"])
        (.file σ.app.text_content)) := by
    rw [FS.writeFile_of_ne_nil _ _ _ hne]
    have h1 : FS.isDir fs1 ((d ++ ["projects"]) ++ ["autosave.bks"]) = false := by
      rw [FS.isDir_of_ne_nil _ _ hne]
      exact beq_eq_false_iff_ne.mpr hnd
    have h2 : FS.isDir fs1 (((d ++ ["projects"]) ++ ["autosave.bks"]).dropLast) = true := by
      rw [show (((d ++ ["projects"]) ++ ["autosave.bks"]) : Path).dropLast =
          d ++ ["projects"] from by simp]
      rw [FS.isDir_of_ne_nil _ _ (by simp), hpd]
      rfl
    rw [h1, h2]
    simp
  have hsv : save_text_file ((d ++ ["projects"]) ++ ["autosave.bks"])
      σ.app.text_content fs1 =
      .ok (FS.insert fs1 ((d ++ ["projects"]) ++ ["autosave.bks"])
        (.file σ.app.text_content)) := by
    simp only [save_text_file, Path.parent_concat,
      FS.createDirAll_idem _ _ _ hcd, hwrite]
  simp only [autosaveStep, hga, hsv]
  exact ⟨trivial, FS.lookup_insert_self _ _ _, trivial⟩

/-- Witness for C3: with platform directory `home`, an empty filesystem and
buffer `Hello`, the cycle emits the five events in order and stores
`Hello` at `home/projects/autosave.bks`. -/
theorem autosave_cycle_order_witness :
    (autosaveStep (some ["home"]) ⟨⟨"Hello", none, "Ready"⟩, []⟩).2.2 =
      [.sleep 60, .resolveDir, .lockAcquire, .lockRelease,
        .diskWrite (((["home"] : Path) ++ ["projects"]) ++ ["autosave.bks"])] ∧
    FS.lookup ((autosaveStep (some ["home"]) ⟨⟨"Hello", none, "Ready"⟩, []⟩).1.fs)
      (((["home"] : Path) ++ ["projects"]) ++ ["autosave.bks"]) =
      some (.file "Hello") ∧
    (autosaveStep (some ["home"]) ⟨⟨"Hello", none, "Ready"⟩, []⟩).1.app =
      (⟨"Hello", none, "Ready"⟩ : AppState) :=
  autosave_cycle_order ["home"] ⟨⟨"Hello", none, "Ready"⟩, []⟩
    [((["home", "projects"] : Path), Entry.dir), ((["home"] : Path), Entry.dir)]
    rfl (by decide)

end BookScript
